import Mathlib

/-!
Verification of the praxis-cli core against its design specification.

The TypeScript sources are shallowly embedded: pure functions become Lean
functions, filesystem state becomes explicit association lists from path
strings to file contents, and machine integers are `Nat` with explicit
`% 2 ^ 32` where 32-bit overflow matters.  Components whose source is not
in the repository snapshot (the glob expander, front-matter accessors,
markdown body reader and output builder) are modelled from the
specification text and marked as such in their doc comments.
-/

/-! ## SHA-256 (embedding of node:crypto createHash("sha256"))

`contentHash` in src/validator/cache-manager.ts delegates to node's
SHA-256.  The algorithm is embedded here over `Nat` bytes and 32-bit
words (`Nat` reduced mod `2 ^ 32`). -/

/-- 2^32, the 32-bit word modulus. -/
def w32 : Nat := 4294967296

/-- 32-bit addition. -/
def add32 (a b : Nat) : Nat := (a + b) % w32

/-- 32-bit rotate right by `n` (input assumed `< 2 ^ 32`). -/
def rotr32 (x n : Nat) : Nat := x / 2 ^ n + x % 2 ^ n * 2 ^ (32 - n)

/-- 32-bit logical shift right. -/
def shr32 (x n : Nat) : Nat := x / 2 ^ n

/-- 32-bit bitwise complement. -/
def not32 (x : Nat) : Nat := Nat.xor x (w32 - 1)

/-- SHA-256 small sigma 0. -/
def ssig0 (x : Nat) : Nat := Nat.xor (Nat.xor (rotr32 x 7) (rotr32 x 18)) (shr32 x 3)

/-- SHA-256 small sigma 1. -/
def ssig1 (x : Nat) : Nat := Nat.xor (Nat.xor (rotr32 x 17) (rotr32 x 19)) (shr32 x 10)

/-- SHA-256 big sigma 0. -/
def bsig0 (x : Nat) : Nat := Nat.xor (Nat.xor (rotr32 x 2) (rotr32 x 13)) (rotr32 x 22)

/-- SHA-256 big sigma 1. -/
def bsig1 (x : Nat) : Nat := Nat.xor (Nat.xor (rotr32 x 6) (rotr32 x 11)) (rotr32 x 25)

/-- SHA-256 choice function. -/
def ch32 (x y z : Nat) : Nat := Nat.xor (Nat.land x y) (Nat.land (not32 x) z)

/-- SHA-256 majority function. -/
def maj32 (x y z : Nat) : Nat :=
  Nat.xor (Nat.xor (Nat.land x y) (Nat.land x z)) (Nat.land y z)

/-- The 64 SHA-256 round constants (FIPS 180-4, in decimal). -/
def sha256K : List Nat :=
  [1116352408, 1899447441, 3049323471, 3921009573, 961987163, 1508970993,
   2453635748, 2870763221, 3624381080, 310598401, 607225278, 1426881987,
   1925078388, 2162078206, 2614888103, 3248222580, 3835390401, 4022224774,
   264347078, 604807628, 770255983, 1249150122, 1555081692, 1996064986,
   2554220882, 2821834349, 2952996808, 3210313671, 3336571891, 3584528711,
   113926993, 338241895, 666307205, 773529912, 1294757372, 1396182291,
   1695183700, 1986661051, 2177026350, 2456956037, 2730485921, 2820302411,
   3259730800, 3345764771, 3516065817, 3600352804, 4094571909, 275423344,
   430227734, 506948616, 659060556, 883997877, 958139571, 1322822218,
   1537002063, 1747873779, 1955562222, 2024104815, 2227730452, 2361852424,
   2428436474, 2756734187, 3204031479, 3329325298]

/-- SHA-256 working state: eight 32-bit words. -/
structure Hash8 where
  a : Nat
  b : Nat
  c : Nat
  d : Nat
  e : Nat
  f : Nat
  g : Nat
  h : Nat
deriving DecidableEq, Repr

/-- SHA-256 initial hash value (FIPS 180-4, in decimal). -/
def sha256Init : Hash8 :=
  ⟨1779033703, 3144134277, 1013904242, 2773480762, 1359893119, 2600822924, 528734635, 1541459225⟩

/-- Extends a 16-word block to the 64-word message schedule.  The
accumulator holds the words already produced, most recent first. -/
def scheduleExt : Nat → List Nat → List Nat
  | 0, acc => acc.reverse
  | n + 1, acc =>
      scheduleExt n
        (add32 (add32 (ssig1 (acc.getD 1 0)) (acc.getD 6 0))
               (add32 (ssig0 (acc.getD 14 0)) (acc.getD 15 0)) :: acc)

/-- Full 64-word message schedule of one 16-word block. -/
def sha256Schedule (block : List Nat) : List Nat := scheduleExt 48 block.reverse

/-- One SHA-256 compression round; `kw` is the round constant paired with
the schedule word. -/
def sha256Round (st : Hash8) (kw : Nat × Nat) : Hash8 :=
  let t1 := add32 (add32 (add32 st.h (bsig1 st.e)) (add32 (ch32 st.e st.f st.g) kw.1)) kw.2
  let t2 := add32 (bsig0 st.a) (maj32 st.a st.b st.c)
  ⟨add32 t1 t2, st.a, st.b, st.c, add32 st.d t1, st.e, st.f, st.g⟩

/-- Compresses one 16-word block into the running hash state. -/
def sha256Compress (st : Hash8) (block : List Nat) : Hash8 :=
  let fin := (sha256K.zip (sha256Schedule block)).foldl sha256Round st
  ⟨add32 st.a fin.a, add32 st.b fin.b, add32 st.c fin.c, add32 st.d fin.d,
   add32 st.e fin.e, add32 st.f fin.f, add32 st.g fin.g, add32 st.h fin.h⟩

/-- Big-endian 4-byte grouping of a byte list into 32-bit words. -/
def toWords : List Nat → List Nat
  | b0 :: b1 :: b2 :: b3 :: rest => (((b0 * 256 + b1) * 256 + b2) * 256 + b3) :: toWords rest
  | _ => []

/-- Groups a word list into 16-word blocks. -/
def toBlocks : List Nat → List (List Nat)
  | w0 :: w1 :: w2 :: w3 :: w4 :: w5 :: w6 :: w7 ::
    w8 :: w9 :: w10 :: w11 :: w12 :: w13 :: w14 :: w15 :: rest =>
      [w0, w1, w2, w3, w4, w5, w6, w7, w8, w9, w10, w11, w12, w13, w14, w15] :: toBlocks rest
  | _ => []

/-- Big-endian 8-byte encoding of a length in bits. -/
def lenBytes (n : Nat) : List Nat :=
  [n / 2 ^ 56 % 256, n / 2 ^ 48 % 256, n / 2 ^ 40 % 256, n / 2 ^ 32 % 256,
   n / 2 ^ 24 % 256, n / 2 ^ 16 % 256, n / 2 ^ 8 % 256, n % 256]

/-- SHA-256 padding: append 0x80, zeros to 56 mod 64, then the bit length. -/
def padMessage (m : List Nat) : List Nat :=
  let zeros := (64 - (m.length + 9) % 64) % 64
  m ++ 0x80 :: List.replicate zeros 0 ++ lenBytes (m.length * 8)

/-- Final SHA-256 state of a byte message. -/
def sha256State (m : List Nat) : Hash8 :=
  (toBlocks (toWords (padMessage m))).foldl sha256Compress sha256Init

/-- Big-endian bytes of one 32-bit word. -/
def wordBytes (w : Nat) : List Nat :=
  [w / 2 ^ 24 % 256, w / 2 ^ 16 % 256, w / 2 ^ 8 % 256, w % 256]

/-- SHA-256 digest (32 bytes) of a byte message. -/
def sha256 (m : List Nat) : List Nat :=
  let st := sha256State m
  wordBytes st.a ++ wordBytes st.b ++ wordBytes st.c ++ wordBytes st.d ++
  wordBytes st.e ++ wordBytes st.f ++ wordBytes st.g ++ wordBytes st.h

/-- UTF-8 encoding of one character (as node's hash update encodes strings). -/
def utf8Char (c : Char) : List Nat :=
  let n := c.toNat
  if n < 0x80 then [n]
  else if n < 0x800 then [0xC0 + n / 64, 0x80 + n % 64]
  else if n < 0x10000 then [0xE0 + n / 4096, 0x80 + n / 64 % 64, 0x80 + n % 64]
  else [0xF0 + n / 262144, 0x80 + n / 4096 % 64, 0x80 + n / 64 % 64, 0x80 + n % 64]

/-- UTF-8 byte sequence of a string. -/
def utf8Str (s : String) : List Nat := (s.toList.map utf8Char).flatten

/-- Lowercase hex character for a value `< 16`. -/
def hexChar (n : Nat) : Char := if n < 10 then Char.ofNat (48 + n) else Char.ofNat (87 + n)

/-- Two lowercase hex characters of one byte. -/
def hexByte (b : Nat) : List Char := [hexChar (b / 16), hexChar (b % 16)]

/-- Lowercase hex string of a byte list. -/
def hexOfBytes (bs : List Nat) : String := String.mk ((bs.map hexByte).flatten)

/-- Embeds `contentHash` of src/validator/cache-manager.ts: the first 8
characters of the SHA-256 hex digest of document content concatenated
with readme content. -/
def contentHash (documentContent : String) (readmeContent : String) : String :=
  hexOfBytes (List.take 4 (sha256 (utf8Str (documentContent ++ readmeContent))))

/-! ## Filesystem and path-string helpers

Filesystems are association lists from path strings to file contents;
the path helpers model the node:path functions (`dirname`, `basename`,
`join`) on the project-relative paths this program manipulates. -/

/-- First binding of a path in an association-list filesystem
(`existsSync` + file lookup). -/
def lookupFile {α : Type} (fs : List (String × α)) (p : String) : Option α :=
  match fs with
  | [] => none
  | e :: rest => if e.1 = p then some e.2 else lookupFile rest p

/-- Removes a path from a filesystem (`unlinkSync`; removing an absent
path is a no-op). -/
def eraseFile {α : Type} : List (String × α) → String → List (String × α)
  | [], _ => []
  | e :: rest, p => if e.1 = p then eraseFile rest p else e :: eraseFile rest p

/-- Writes a file, overwriting any previous content (`writeFileSync`). -/
def setFile {α : Type} (fs : List (String × α)) (p : String) (v : α) : List (String × α) :=
  (p, v) :: eraseFile fs p

/-- Whether the first list is an initial segment of the second. -/
def isPrefixList : List Char → List Char → Bool
  | [], _ => true
  | _ :: _, [] => false
  | a :: as, b :: bs => decide (a = b) && isPrefixList as bs

/-- Splits a character list on one separator character (JS
`split(sep)` for a single-character separator). -/
def splitOnChar (c : Char) : List Char → List (List Char)
  | [] => [[]]
  | x :: xs =>
      let r := splitOnChar c xs
      if x = c then [] :: r
      else
        match r with
        | [] => [[x]]
        | h :: t => (x :: h) :: t

/-- Splits a list on a non-empty separator list, leftmost-first (JS
`split(sep)`); the fuel is at least the list length plus one, and every
step consumes at least one character. -/
def splitOnListAux : Nat → List Char → List Char → List Char → List (List Char)
  | 0, _, acc, _ => [acc.reverse]
  | _ + 1, _, acc, [] => [acc.reverse]
  | n + 1, sep, acc, c :: cs =>
      if isPrefixList sep (c :: cs) then
        acc.reverse :: splitOnListAux n sep [] ((c :: cs).drop sep.length)
      else splitOnListAux n sep (c :: acc) cs

/-- JS `String.prototype.split` with a non-empty string separator. -/
def splitOnStr (s sep : String) : List String :=
  (splitOnListAux (s.toList.length + 1) sep.toList [] s.toList).map String.mk

/-- Whether `sub` occurs in `s` (JS `String.prototype.includes`, for
non-empty `sub`). -/
def strIncludes (s sub : String) : Bool := decide (1 < (splitOnStr s sub).length)

/-- Whether `pre` is a prefix of `s` (JS `startsWith`). -/
def strStartsWith (s pre : String) : Bool := isPrefixList pre.toList s.toList

/-- Whether `suf` is a suffix of `s` (JS `endsWith`). -/
def strEndsWith (s suf : String) : Bool := isPrefixList suf.toList.reverse s.toList.reverse

/-- Drops the first `n` characters of a string. -/
def strDrop (s : String) (n : Nat) : String := String.mk (s.toList.drop n)

/-- Drops the last `n` characters of a string. -/
def strDropRight (s : String) (n : Nat) : String :=
  String.mk (s.toList.take (s.toList.length - n))

/-- Last element of a string list, or a default (JS `.pop()` on the
result of `split`, which is never empty). -/
def getLastD (l : List String) (dflt : String) : String := l.getLastD dflt

/-- node:path `join` of two segments for the relative paths used here:
`"."` segments vanish, empty segments vanish. -/
def joinPath (a b : String) : String :=
  if a = "" then b else if b = "" ∨ b = "." then a else a ++ "/" ++ b

/-- Splits a path into its `/`-separated segments. -/
def pathParts (p : String) : List String := (splitOnChar '/' p.toList).map String.mk

/-- node:path `dirname` for the relative paths used here. -/
def dirnameStr (p : String) : String :=
  let parts := pathParts p
  if parts.length ≤ 1 then "." else String.intercalate "/" parts.dropLast

/-- node:path `basename(p, ext)` for the relative paths used here: last
path segment with the extension suffix removed when present. -/
def basenameExt (p : String) (ext : String) : String :=
  let base := getLastD (pathParts p) ""
  if strEndsWith base ext ∧ ext.length < base.length then strDropRight base ext.length else base

/-! ## Cache store (embedding of src/validator/cache-manager.ts) -/

/-- Cache format version for backwards-compatibility checks. -/
def CACHE_VERSION : String := "1.0"

/-- Severity level for validation issues. -/
inductive Severity
  | warning
  | error
deriving DecidableEq, Repr

/-- Result of a single document validation, as stored in cache.  The
TS optional field `severity?` becomes an `Option`. -/
structure CachedValidationResult where
  compliant : Bool
  issues : List String
  reason : String
  severity : Option Severity := none
deriving DecidableEq, Repr

/-- Full cache file structure written to disk (the nested `document`
object is flattened into three fields). -/
structure CacheFileData where
  version : String
  cached_at : String
  content_hash : String
  docPath : String
  docType : String
  specPath : String
  result : CachedValidationResult
deriving DecidableEq, Repr

/-- Content of a cache file on disk: either text that parses as the JSON
encoding of a `CacheFileData` (`JSON.stringify`/`JSON.parse` round-trips
records exactly, so the record itself stands for its encoding), or
corrupt/unparseable text. -/
inductive CacheFileContent
  | parsed (d : CacheFileData)
  | corrupt
deriving DecidableEq, Repr

/-- The cache directory tree: cache-file paths to contents. -/
def CacheFs : Type := List (String × CacheFileContent)

/-- Information about an orphaned (stale) cache file. -/
structure OrphanedCacheFile where
  file : String
  reason : String
  docName : String
  type : String
deriving DecidableEq, Repr

/-- Characters stripped by `sanitizeText`:
`[\x00-\x08\x0B\x0C\x0E-\x1F\x7F]`. -/
def isStrippedControl (c : Char) : Bool :=
  decide (c.toNat ≤ 0x08 ∨ c.toNat = 0x0B ∨ c.toNat = 0x0C ∨
    (0x0E ≤ c.toNat ∧ c.toNat ≤ 0x1F) ∨ c.toNat = 0x7F)

/-- Strips control characters and replaces double quotes with single
quotes (embeds `sanitizeText`). -/
def sanitizeText (text : String) : String :=
  String.mk (((text.toList.filter (fun c => !isStrippedControl c)).map
    (fun c => if c = '"' then Char.ofNat 39 else c)))

/-- `sanitizeText` applied to the textual fields of a result, as
`CacheManager.write` does before persisting. -/
def sanitizeResult (r : CachedValidationResult) : CachedValidationResult :=
  { r with reason := sanitizeText r.reason, issues := r.issues.map sanitizeText }

/-- Embeds `CacheManager.cachePathFor`: strip everything up to a
`/content/` segment (or a leading `content/`), keep the sub-directory
structure, and switch the extension to `.json`. -/
def CacheManager.cachePathFor (cacheRoot : String) (documentPath : String) : String :=
  let relativePath :=
    if strIncludes documentPath "/content/" then
      getLastD (splitOnStr documentPath "/content/") ""
    else if strStartsWith documentPath "content/" then strDrop documentPath 8
    else documentPath
  let dirPath := dirnameStr relativePath
  let base := basenameExt relativePath ".md"
  joinPath (joinPath cacheRoot dirPath) (base ++ ".json")

/-- Outcome of the I/O environment during one `write` attempt. -/
inductive WriteIO
  | ok
  | failClean
  | failPartial
deriving DecidableEq, Repr

/-- The try-block of `CacheManager.write`: on success the serialized
entry is stored; `failClean` models a failure before any bytes reach
disk (mkdir or stringify), `failPartial` a `writeFileSync` failure that
leaves a partially written (hence unparseable) file behind.  The error
value carries the filesystem state at throw time. -/
def CacheManager.writeAttempt (fs : CacheFs) (cachePath : String) (data : CacheFileData)
    (io : WriteIO) : Except CacheFs CacheFs :=
  match io with
  | .ok => .ok (setFile fs cachePath (.parsed data))
  | .failClean => .error fs
  | .failPartial => .error (setFile fs cachePath .corrupt)

/-- Embeds `CacheManager.write`: sanitizes the result, builds the cache
record, attempts the write, and on any failure removes whatever is at
the cache path (the catch block; its own `unlinkSync` failure is ignored
there, modelled as the erase succeeding).  Total — `write` never
raises. -/
def CacheManager.write (fs : CacheFs) (cacheRoot documentPath contentHashArg : String)
    (result : CachedValidationResult) (documentType specPath now : String)
    (io : WriteIO) : CacheFs :=
  let cachePath := CacheManager.cachePathFor cacheRoot documentPath
  let cacheData : CacheFileData :=
    { version := CACHE_VERSION, cached_at := now, content_hash := contentHashArg,
      docPath := documentPath, docType := documentType, specPath := specPath,
      result := sanitizeResult result }
  match CacheManager.writeAttempt fs cachePath cacheData io with
  | .ok fs1 => fs1
  | .error fs1 => eraseFile fs1 cachePath

/-- Embeds `CacheManager.read`: returns the stored outcome only when the
cache file exists, parses, carries the current format version and the
requested hash; a corrupt file is deleted on detection.  Returns the
result (or `none`) together with the possibly changed filesystem;
total — `read` never raises. -/
def CacheManager.read (fs : CacheFs) (cacheRoot documentPath contentHashArg : String) :
    Option CachedValidationResult × CacheFs :=
  let cachePath := CacheManager.cachePathFor cacheRoot documentPath
  match lookupFile fs cachePath with
  | none => (none, fs)
  | some .corrupt => (none, eraseFile fs cachePath)
  | some (.parsed cached) =>
      if cached.version = CACHE_VERSION then
        if cached.content_hash = contentHashArg then (some cached.result, fs)
        else (none, fs)
      else (none, fs)

/-- The five document types scanned by `buildDocumentMap`, as the keys
of its `documentTypes` record. -/
def documentTypes : List String :=
  ["roles", "responsibilities", "reference", "context/conventions", "context/constitution"]

/-- The `*.md` files directly inside one type directory
(`fg.sync("*.md", { cwd: typeDir })`), given the content tree as paths
relative to the content root.  A missing type directory yields no files,
matching the `existsSync` guard. -/
def filesInTypeDir (contentFiles : List String) (ty : String) : List String :=
  contentFiles.filterMap (fun p =>
    if strStartsWith p (ty ++ "/") then
      let rest := strDrop p (ty.length + 1)
      if (pathParts rest).length = 1 ∧ strEndsWith rest ".md" then some rest else none
    else none)

/-- Embeds `CacheManager.buildDocumentMap`: the set of valid document
keys `normalizedType/baseName`, where the normalized type is the last
segment of the type directory and `README`/underscore-prefixed files are
skipped. -/
def CacheManager.buildDocumentMap (contentFiles : List String) : List String :=
  documentTypes.flatMap (fun ty =>
    (filesInTypeDir contentFiles ty).filterMap (fun nm =>
      let base := basenameExt nm ".md"
      if base = "README" ∨ strStartsWith base "_" then none
      else some (getLastD (pathParts ty) "" ++ "/" ++ base)))

/-- Embeds `CacheManager.orphanedCacheFiles`: for each cache file
(path relative to the cache root) derive `type/docName` from its first
path segment and base name, and report it when that key names no
existing document.  Pure discovery — the filesystem is not modified. -/
def CacheManager.orphanedCacheFiles (cacheFiles : List String)
    (contentFiles : List String) : List OrphanedCacheFile :=
  let validDocuments := CacheManager.buildDocumentMap contentFiles
  cacheFiles.filterMap (fun cacheFile =>
    let docName := basenameExt cacheFile ".json"
    let ty := ((pathParts cacheFile).headD "unknown")
    let docKey := ty ++ "/" ++ docName
    if docKey ∈ validDocuments then none
    else some { file := cacheFile, reason := "document_missing", docName := docName, type := ty })

/-! ## Role compiler (embedding of src/compiler/role-compiler.ts and
src/compiler/plugin-registry.ts)

The compiler's collaborators whose sources are outside the snapshot are
modelled from the specification: front-matter accessors (§4.1), the
glob expander (§4.2), the markdown body reader (§4.3, folded into the
content filesystem, which maps full paths to already-stripped bodies)
and the output builder (§3, §4.4 step 5). -/

/-- Modelled from the spec (§4.1): a parsed front-matter value — absent,
boolean, scalar string, or array of strings. -/
inductive FmValue
  | missing
  | boolVal (b : Bool)
  | strVal (s : String)
  | arrVal (l : List String)
deriving DecidableEq, Repr

/-- Modelled from the spec (§4.1): a parsed front-matter mapping,
exposed as a total function from keys to values. -/
def Frontmatter : Type := String → FmValue

/-- JS truthiness of a front-matter value (`false`, `undefined` and
`""` are falsy; arrays are always truthy). -/
def truthyFm : FmValue → Bool
  | .missing => false
  | .boolVal b => b
  | .strVal s => decide (s ≠ "")
  | .arrVal _ => true

/-- Modelled from the spec (§4.1): `value(key)` as a string scalar or
undefined (`fm.value(k) as string | undefined`). -/
def fmValueStr (fm : Frontmatter) (k : String) : Option String :=
  match fm k with
  | .strVal s => some s
  | _ => none

/-- Modelled from the spec (§4.1): `array(key)` always returns a
sequence — empty if absent, wrapped singleton for a scalar.  Boolean
values are not used for reference groups and normalize to empty. -/
def fmArray (fm : Frontmatter) (k : String) : List String :=
  match fm k with
  | .missing => []
  | .boolVal _ => []
  | .strVal s => [s]
  | .arrVal l => l

/-- Diagnostics logged by the compiler (`logger.warn` calls). -/
inductive Diag
  | deprecatedConstitution
  | constitutionZeroMatch
  | zeroMatchGlob (pattern : String)
  | refNotFound (path : String)
  | noDescription
  | noAlias
deriving DecidableEq, Repr

/-- The content tree seen by the compiler: full document paths mapped to
document bodies (front-matter already stripped, per §4.3 the document
reader strips it on every read). -/
def CFs : Type := List (String × String)

/-- Modelled from the spec (§4.2): whether a pattern contains glob
characters. -/
def GlobExpander.isGlob (pattern : String) : Bool :=
  pattern.toList.any (fun c => decide (c = '*' ∨ c = '?' ∨ c = '['))

/-- Single-segment glob matcher (`*` and `?` do not cross `/`), with
fuel for structural recursion; the fuel is sufficient because every step
shrinks pattern length plus path length. -/
def globMatchAux : Nat → List Char → List Char → Bool
  | 0, _, _ => false
  | _ + 1, [], [] => true
  | _ + 1, [], _ :: _ => false
  | n + 1, '*' :: ps, s =>
      globMatchAux n ps s ||
        (match s with
         | [] => false
         | c :: rest => decide (c ≠ '/') && globMatchAux n ('*' :: ps) rest)
  | n + 1, '?' :: ps, s =>
      (match s with
       | [] => false
       | c :: rest => decide (c ≠ '/') && globMatchAux n ps rest)
  | n + 1, p :: ps, s =>
      (match s with
       | [] => false
       | c :: rest => decide (p = c) && globMatchAux n ps rest)

/-- Modelled from the spec (§4.2): glob-pattern match on a relative path. -/
def globMatch (pattern path : String) : Bool :=
  globMatchAux (pattern.length + path.length + 1) pattern.toList path.toList

/-- Relative paths of the files under `root` in a content tree. -/
def relPathsUnder (fs : CFs) (root : String) : List String :=
  fs.filterMap (fun e =>
    if strStartsWith e.1 (root ++ "/") then some (strDrop e.1 (root.length + 1)) else none)

/-- Keeps the first occurrence of each element (cross-pattern
de-duplication of §4.2). -/
def dedupKeepFirst : List String → List String → List String
  | _, [] => []
  | seen, x :: xs =>
      if x ∈ seen then dedupKeepFirst seen xs else x :: dedupKeepFirst (x :: seen) xs

/-- Modelled from the spec (§4.2): `expand(pattern, root)` — a glob
pattern resolves to the lexicographically ordered existing matches; a
literal pattern resolves to itself when the file exists and otherwise to
nothing, reported as "referenced file not found".  Zero-match globs are
diagnosed by the caller (`inlineRefs`), which the source retains. -/
def GlobExpander.expand (fs : CFs) (root : String) (pattern : String) :
    List String × List Diag :=
  if GlobExpander.isGlob pattern then
    (((relPathsUnder fs root).filter (fun p => globMatch pattern p)).mergeSort
        (fun a b => decide (a ≤ b)), [])
  else if (lookupFile fs (joinPath root pattern)).isSome then ([pattern], [])
  else ([], [Diag.refNotFound pattern])

/-- Modelled from the spec (§4.2): `expandAll` concatenates per-pattern
results in declaration order and de-duplicates across the whole set. -/
def GlobExpander.expandAll (fs : CFs) (root : String) (patterns : List String) :
    List String × List Diag :=
  let raw := patterns.foldl
    (fun acc p =>
      let r := GlobExpander.expand fs root p
      (acc.1 ++ r.1, acc.2 ++ r.2))
    ([], [])
  (dedupKeepFirst [] raw.1, raw.2)

/-- The per-path inlining step shared by `inlineRefs` and
`inlineConstitution`: read the body of each resolved path, skipping —
with a not-found diagnostic — any path missing at inline time. -/
def inlineBodies (fs : CFs) (root : String) (expanded : List String) :
    List String × List Diag :=
  let results := expanded.map (fun relPath => (relPath, lookupFile fs (joinPath root relPath)))
  (results.filterMap (fun r => r.2),
   results.filterMap (fun r =>
     match r.2 with
     | none => some (Diag.refNotFound r.1)
     | some _ => none))

/-- Embeds `RoleCompiler.resolveConstitutionPatterns`: `constitution:
true` is deprecated (warn, expand nothing); a string or array expands
like any reference group; falsy values expand nothing silently. -/
def RoleCompiler.resolveConstitutionPatterns (fs : CFs) (root : String) (fm : Frontmatter) :
    List String × List Diag :=
  match fm "constitution" with
  | .missing => ([], [])
  | .boolVal false => ([], [])
  | .boolVal true => ([], [Diag.deprecatedConstitution])
  | .strVal s => if s = "" then ([], []) else GlobExpander.expandAll fs root [s]
  | .arrVal l => GlobExpander.expandAll fs root l

/-- Embeds `RoleCompiler.inlineConstitution`: resolve the patterns, warn
when a truthy non-`true` declaration matched zero files, and inline the
bodies. -/
def RoleCompiler.inlineConstitution (fs : CFs) (root : String) (fm : Frontmatter) :
    List String × List Diag :=
  let raw := fm "constitution"
  let resolved := RoleCompiler.resolveConstitutionPatterns fs root fm
  let zeroWarn :=
    if truthyFm raw ∧ raw ≠ FmValue.boolVal true ∧ resolved.1 = [] then
      [Diag.constitutionZeroMatch]
    else []
  let inlined := inlineBodies fs root resolved.1
  (inlined.1, resolved.2 ++ zeroWarn ++ inlined.2)

/-- Embeds `RoleCompiler.inlineRefs`: warn about zero-match glob
patterns, expand all patterns, and inline the bodies, skipping missing
files with a diagnostic. -/
def RoleCompiler.inlineRefs (fs : CFs) (root : String) (fm : Frontmatter) (key : String) :
    List String × List Diag :=
  let patterns := fmArray fm key
  let globWarns := patterns.foldl
    (fun acc p =>
      if GlobExpander.isGlob p ∧ (GlobExpander.expand fs root p).1 = [] then
        acc ++ [Diag.zeroMatchGlob p]
      else acc)
    []
  let expanded := GlobExpander.expandAll fs root patterns
  let inlined := inlineBodies fs root expanded.1
  (inlined.1, globWarns ++ expanded.2 ++ inlined.2)

/-- ASCII lowercasing of one character. -/
def toLowerChar (c : Char) : Char :=
  if 65 ≤ c.toNat ∧ c.toNat ≤ 90 then Char.ofNat (c.toNat + 32) else c

/-- ASCII lowercasing (JS `toLowerCase` on the ASCII aliases used
here). -/
def toLowerStr (s : String) : String := String.mk (s.toList.map toLowerChar)

/-- Whether a character is in `[a-z0-9]`. -/
def isLowerAlnum (c : Char) : Bool :=
  decide ((97 ≤ c.toNat ∧ c.toNat ≤ 122) ∨ (48 ≤ c.toNat ∧ c.toNat ≤ 57))

/-- Replaces every maximal run of non-`[a-z0-9]` characters with one
hyphen (`replace(/[^a-z0-9]+/g, "-")`); the flag records whether the
previous character was part of a run already replaced. -/
def collapseRuns : Bool → List Char → List Char
  | _, [] => []
  | inRun, c :: cs =>
      if isLowerAlnum c then c :: collapseRuns false cs
      else if inRun then collapseRuns true cs
      else '-' :: collapseRuns true cs

/-- Drops one leading hyphen (`replace(/^-|-$/g, "")` removes at most
one at each end after collapsing). -/
def dropOneLead : List Char → List Char
  | '-' :: rest => rest
  | l => l

/-- Normalized agent name: alias lowercased, non-alphanumeric runs
collapsed to one hyphen, one leading/trailing hyphen stripped (embeds
the `name` derivation of `RoleCompiler.buildAgentMetadata`). -/
def normalizeAlias (roleAlias : String) : String :=
  let collapsed := collapseRuns false (toLowerStr roleAlias).toList
  String.mk ((dropOneLead (dropOneLead collapsed).reverse).reverse)

/-- Agent metadata derived from role front-matter
(src/compiler/output-builder.js interface, shape from its users). -/
structure AgentMetadata where
  name : String
  description : String
  tools : Option String := none
  model : Option String := none
  permissionMode : Option String := none
deriving DecidableEq, Repr

/-- A truthy optional string (`if (tools) metadata.tools = tools`). -/
def optTruthy (o : Option String) : Option String :=
  match o with
  | some s => if s = "" then none else some s
  | none => none

/-- Embeds `RoleCompiler.buildAgentMetadata`: the normalized name plus
description and optional passthrough fields; a missing or empty
description yields no metadata and a diagnostic. -/
def RoleCompiler.buildAgentMetadata (fm : Frontmatter) (roleAlias : String) :
    Option AgentMetadata × List Diag :=
  let name := normalizeAlias roleAlias
  match fmValueStr fm "description" with
  | none => (none, [Diag.noDescription])
  | some d =>
      if d = "" then (none, [Diag.noDescription])
      else
        (some { name := name, description := d,
                tools := optTruthy (fmValueStr fm "agent_tools"),
                model := optTruthy (fmValueStr fm "agent_model"),
                permissionMode := optTruthy (fmValueStr fm "agent_permission_mode") }, [])

/-! ### Output builder (modelled from the spec §3, §4.4 step 5) -/

/-- Modelled from the spec: a section is emitted as a `# <SectionName>`
header followed by the blank-line separated bodies, and omitted entirely
when it collected zero bodies. -/
def OutputBuilder.renderSection (name : String) (bodies : List String) : List String :=
  if bodies = [] then []
  else ["# " ++ name ++ "\n\n" ++ String.intercalate "\n\n" bodies]

/-- Modelled from the spec: the pure profile rendering, sections in the
canonical order Role, Responsibilities, Constitution, Context,
Reference. -/
def OutputBuilder.buildProfile
    (role resp cons ctx refs : List String) : String :=
  String.intercalate "\n\n"
    (OutputBuilder.renderSection "Role" role ++
     OutputBuilder.renderSection "Responsibilities" resp ++
     OutputBuilder.renderSection "Constitution" cons ++
     OutputBuilder.renderSection "Context" ctx ++
     OutputBuilder.renderSection "Reference" refs)

/-! ### Plugin registry and output routing -/

/-- The closed set of compiler plugins (src/compiler/plugins). -/
inductive CompilerPlugin
  | claudeCode
deriving DecidableEq, Repr

/-- The fixed plugin registry `PLUGINS` of
src/compiler/plugin-registry.ts. -/
def PLUGINS : List (String × CompilerPlugin) := [("claude-code", CompilerPlugin.claudeCode)]

/-- The `Available plugins: ...` listing
(`Object.keys(PLUGINS).join(", ")`). -/
def availablePlugins : String := String.intercalate ", " (PLUGINS.map Prod.fst)

/-- The error message thrown for an unknown plugin name. -/
def unknownPluginMsg (name : String) : String :=
  "Unknown plugin: \"" ++ name ++ "\". Available plugins: " ++ availablePlugins

/-- Embeds `resolvePlugins`: maps each configured name through the
registry, failing on the first unknown name with an error that lists
the known plugin names. -/
def resolvePlugins : List String → Except String (List CompilerPlugin)
  | [] => .ok []
  | name :: rest =>
      match lookupFile PLUGINS name with
      | none => .error (unknownPluginMsg name)
      | some c =>
          match resolvePlugins rest with
          | .error e => .error e
          | .ok cs => .ok (c :: cs)

/-- Compiler configuration (the slice of `PraxisConfig` that
`writeOutputs` consults). -/
structure CompilerConfig where
  agentProfilesOutputDir : Option String
  plugins : List String
  pluginsOutputDir : Option String := none
  pluginName : String := "praxis"
deriving DecidableEq, Repr

/-- Output directory of the Claude Code plugin
(src/compiler/plugins/claude-code.js constructor). -/
def pluginOutputDir (root : String) (cfg : CompilerConfig) : String :=
  match cfg.pluginsOutputDir with
  | some d => joinPath (joinPath d cfg.pluginName) "agents"
  | none => joinPath (joinPath (joinPath root "plugins") cfg.pluginName) "agents"

/-- Per-character YAML escaping of `quoteIfNeeded` (backslashes doubled
first, then double quotes escaped). -/
def escapeYaml (s : String) : String :=
  String.mk (s.toList.flatMap (fun c =>
    if c = '\\' then ['\\', '\\'] else if c = '"' then ['\\', '"'] else [c]))

/-- Characters that force YAML quoting in `quoteIfNeeded`. -/
def yamlSpecialChars : List Char :=
  [':', '[', ']', Char.ofNat 123, Char.ofNat 125, '#', '&', '*', '!', '|', '>',
   Char.ofNat 39, '"', '%', '@', Char.ofNat 96, '\\']

/-- Embeds `quoteIfNeeded` of the Claude Code plugin. -/
def quoteIfNeeded (str : String) : String :=
  if str.toList.any (fun c => c ∈ yamlSpecialChars ∨ c = '\n') then
    "\"" ++ escapeYaml str ++ "\""
  else str

/-- Embeds `ClaudeCodePlugin.buildFrontmatter`: the YAML metadata block,
or nothing when metadata (or a required field) is missing. -/
def ClaudeCodePlugin.buildFrontmatter (metadata : Option AgentMetadata) : Option String :=
  match metadata with
  | none => none
  | some md =>
      if md.name = "" ∨ md.description = "" then none
      else
        some (String.intercalate "\n"
          (["---", "name: " ++ md.name, "description: " ++ quoteIfNeeded md.description] ++
           (match md.tools with | some t => ["tools: " ++ t] | none => []) ++
           (match md.model with | some m => ["model: " ++ m] | none => []) ++
           (match md.permissionMode with | some p => ["permissionMode: " ++ p] | none => []) ++
           ["---"]))

/-- The plugin-written output tree: file paths to contents. -/
def OutFs : Type := List (String × String)

/-- Embeds `ClaudeCodePlugin.compile`: wrap the profile with the YAML
block (when any) and write it to `<outputDir>/<alias lowercased>.md`. -/
def ClaudeCodePlugin.compile (out : OutFs) (outputDir profileContent : String)
    (metadata : Option AgentMetadata) (roleAlias : String) : OutFs :=
  let content :=
    match ClaudeCodePlugin.buildFrontmatter metadata with
    | some f => f ++ "\n" ++ profileContent
    | none => profileContent
  setFile out (joinPath outputDir (toLowerStr roleAlias ++ ".md")) content

/-- One plugin's output pass. -/
def runPlugin (out : OutFs) (root : String) (cfg : CompilerConfig)
    (profile : String) (metadata : Option AgentMetadata) (roleAlias : String) :
    CompilerPlugin → OutFs
  | .claudeCode => ClaudeCodePlugin.compile out (pluginOutputDir root cfg) profile metadata roleAlias

/-- Embeds `RoleCompiler.writeOutputs`: first the pure profile is
written to the configured profile directory (one `<alias
lowercased>.md` file), then the configured plugins are resolved and run.
An unknown plugin name surfaces as the thrown error, carrying the output
state at throw time — after the profile write. -/
def RoleCompiler.writeOutputs (out : OutFs) (root : String) (cfg : CompilerConfig)
    (profile : String) (metadata : Option AgentMetadata) (roleAlias : String) :
    Except (String × OutFs) OutFs :=
  let out1 :=
    match cfg.agentProfilesOutputDir with
    | some dir => setFile out (joinPath dir (toLowerStr roleAlias ++ ".md")) profile
    | none => out
  match resolvePlugins cfg.plugins with
  | .error e => .error (e, out1)
  | .ok ps => .ok (ps.foldl (fun acc p => runPlugin acc root cfg profile metadata roleAlias p) out1)

/-- Embeds `RoleCompiler.compile` for one role whose front-matter and
body have been read: no alias skips the role with a diagnostic; otherwise
the profile is assembled from the reference groups and routed to the
outputs. -/
def RoleCompiler.compileRole (fs : CFs) (out : OutFs) (root : String) (cfg : CompilerConfig)
    (fm : Frontmatter) (roleBody : String) :
    Except (String × OutFs) (Option String × OutFs × List Diag) :=
  match fmValueStr fm "alias" with
  | none => .ok (none, out, [Diag.noAlias])
  | some roleAlias =>
      if roleAlias = "" then .ok (none, out, [Diag.noAlias])
      else
        let md := RoleCompiler.buildAgentMetadata fm roleAlias
        let resp := RoleCompiler.inlineRefs fs root fm "responsibilities"
        let cons := RoleCompiler.inlineConstitution fs root fm
        let ctx := RoleCompiler.inlineRefs fs root fm "context"
        let refs := RoleCompiler.inlineRefs fs root fm "refs"
        let profile := OutputBuilder.buildProfile [roleBody] resp.1 cons.1 ctx.1 refs.1
        match RoleCompiler.writeOutputs out root cfg profile md.1 roleAlias with
        | .error e => .error e
        | .ok out1 =>
            .ok (some roleAlias, out1, md.2 ++ resp.2 ++ cons.2 ++ ctx.2 ++ refs.2)

/-! ## Document validator response parsing (embedding of
src/validator/document-validator.ts `parseResponse` / `parseIssues`) -/

/-- The JS whitespace characters relevant to the replies handled here
(`\s` and `trim`): space, tab, newline, vertical tab, form feed,
carriage return, and no-break space. -/
def isJsWhitespace (c : Char) : Bool :=
  decide (c.toNat = 32 ∨ c.toNat = 9 ∨ c.toNat = 10 ∨ c.toNat = 11 ∨ c.toNat = 12 ∨
    c.toNat = 13 ∨ c.toNat = 0xA0)

/-- JS `String.prototype.trim`. -/
def jsTrim (s : String) : String :=
  String.mk (((s.toList.dropWhile isJsWhitespace).reverse.dropWhile isJsWhitespace).reverse)

/-- A separator of the first-word split `split(/[\s,.:]/)`. -/
def isTokenSep (c : Char) : Bool := isJsWhitespace c || decide (c = ',' ∨ c = '.' ∨ c = ':')

/-- The reply's leading token, lowercased: element 0 of
`trimmed.split(/[\s,.:]/)`, i.e. the prefix before the first
separator. -/
def firstWord (trimmed : String) : String :=
  toLowerStr (String.mk (trimmed.toList.takeWhile (fun c => !isTokenSep c)))

/-- Whether a trimmed line starts a bullet item (`/^[-*•]\s+/`). -/
def isBulletLine (l : List Char) : Bool :=
  match l with
  | c :: d :: _ => decide (c = '-' ∨ c = '*' ∨ c = '•') && isJsWhitespace d
  | _ => false

/-- Whether a trimmed line starts a numbered item (`/^\d+\.\s+/`). -/
def isNumberedLine (l : List Char) : Bool :=
  let ds := l.takeWhile Char.isDigit
  match l.drop ds.length with
  | '.' :: w :: _ => decide (ds ≠ []) && isJsWhitespace w
  | _ => false

/-- The list-marker stripping `replace(/^[-*•\d.]+\s*/, "")` on a line
known to start with a marker character. -/
def stripMarker (l : List Char) : List Char :=
  (l.dropWhile (fun c => decide (c = '-' ∨ c = '*' ∨ c = '•' ∨ c = '.') || c.isDigit)).dropWhile
    isJsWhitespace

/-- Embeds `DocumentValidator.parseIssues`: bullet or numbered lines
become discrete issues; with no list lines the whole reply is the single
issue. -/
def DocumentValidator.parseIssues (reason : String) : List String :=
  let issues := ((splitOnChar '\n' reason.toList).map String.mk).filterMap (fun line =>
    let t := (jsTrim line).toList
    if isBulletLine t ∨ isNumberedLine t then some (String.mk (stripMarker t)) else none)
  if issues.length > 0 then issues else [reason]

/-- Embeds `DocumentValidator.parseResponse`: a leading "yes" means
compliant; otherwise the issues are extracted and the severity is
warning for a leading "maybe", error otherwise. -/
def DocumentValidator.parseResponse (response : String) : CachedValidationResult :=
  let trimmed := jsTrim response
  if firstWord trimmed = "yes" then
    { compliant := true, issues := [], reason := trimmed, severity := none }
  else
    { compliant := false, issues := DocumentValidator.parseIssues trimmed, reason := trimmed,
      severity := some (if firstWord trimmed = "maybe" then Severity.warning else Severity.error) }

/-! ## Helper lemmas about the filesystem model -/

theorem lookupFile_nil {α : Type} (p : String) : lookupFile ([] : List (String × α)) p = none := rfl

theorem lookupFile_cons {α : Type} (e : String × α) (fs : List (String × α)) (p : String) :
    lookupFile (e :: fs) p = if e.1 = p then some e.2 else lookupFile fs p := rfl

theorem lookupFile_eraseFile {α : Type} (fs : List (String × α)) (p q : String) :
    lookupFile (eraseFile fs p) q = if q = p then none else lookupFile fs q := by
  induction fs with
  | nil => simp [eraseFile, lookupFile]
  | cons e rest ih =>
      by_cases hep : e.1 = p
      · rw [show eraseFile (e :: rest) p = eraseFile rest p by simp [eraseFile, hep], ih]
        by_cases hqp : q = p
        · simp [hqp]
        · have heq : ¬ e.1 = q := fun h => hqp (by rw [← h, hep])
          simp [hqp, lookupFile_cons, heq]
      · rw [show eraseFile (e :: rest) p = e :: eraseFile rest p by simp [eraseFile, hep]]
        rw [lookupFile_cons, lookupFile_cons, ih]
        by_cases heq : e.1 = q
        · have hqp : ¬ q = p := fun h => hep (heq.trans h)
          simp [heq, hqp]
        · simp [heq]

theorem lookupFile_setFile {α : Type} (fs : List (String × α)) (p q : String) (v : α) :
    lookupFile (setFile fs p v) q = if p = q then some v else lookupFile fs q := by
  by_cases h : p = q
  · subst h; simp [setFile, lookupFile_cons]
  · simp [setFile, lookupFile_cons, lookupFile_eraseFile, h,
      show q ≠ p from fun hq => h hq.symm, show ¬ p = q from h]

/-! ## C1, C3, C9 — cache write/read -/

/-- C1 (amended): `write(p, fp, o, m)` followed by `read(p, fp)` returns
the outcome with its reason and issue texts sanitized — equal to `o`
whenever those texts contain no control characters or double quotes —
and the optional severity field is always preserved exactly. -/
theorem cache_write_read_roundtrip (fs : CacheFs) (cacheRoot documentPath fp : String)
    (o : CachedValidationResult) (dt sp now : String) :
    (CacheManager.read (CacheManager.write fs cacheRoot documentPath fp o dt sp now .ok)
        cacheRoot documentPath fp).1 = some (sanitizeResult o)
  ∧ ((CacheManager.read (CacheManager.write fs cacheRoot documentPath fp o dt sp now .ok)
        cacheRoot documentPath fp).1.map CachedValidationResult.severity) = some o.severity
  ∧ (sanitizeText o.reason = o.reason → o.issues.map sanitizeText = o.issues →
      (CacheManager.read (CacheManager.write fs cacheRoot documentPath fp o dt sp now .ok)
        cacheRoot documentPath fp).1 = some o) := by
  have h1 : (CacheManager.read (CacheManager.write fs cacheRoot documentPath fp o dt sp now .ok)
      cacheRoot documentPath fp).1 = some (sanitizeResult o) := by
    simp [CacheManager.read, CacheManager.write, CacheManager.writeAttempt,
      lookupFile_setFile, CACHE_VERSION]
  refine ⟨h1, ?_, ?_⟩
  · rw [h1]; rfl
  · intro hr hi
    rw [h1]
    cases o with
    | mk compliant issues reason severity => simp_all [sanitizeResult]

/-- Witness for C1's amended theorem at a clean concrete outcome. -/
theorem cache_write_read_roundtrip_witness :
    (CacheManager.read
      (CacheManager.write [] "cache" "content/roles/test-role.md" "abcd1234"
        { compliant := true, issues := [], reason := "All good" }
        "role" "content/roles/README.md" "t" .ok)
      "cache" "content/roles/test-role.md" "abcd1234").1
    = some { compliant := true, issues := [], reason := "All good" } :=
  (cache_write_read_roundtrip [] "cache" "content/roles/test-role.md" "abcd1234"
    { compliant := true, issues := [], reason := "All good" }
    "role" "content/roles/README.md" "t").2.2 (by decide) (by decide)

/-- C1 counterexample: an outcome whose reason contains a control
character is not returned verbatim — the round-trip yields the
sanitized text, so the claim's exact-equality round-trip fails. -/
theorem cache_roundtrip_sanitizes :
    (CacheManager.read
      (CacheManager.write [] "cache" "content/roles/r.md" "abcd1234"
        { compliant := false, issues := [], reason := "bad\x00text", severity := some Severity.error }
        "role" "content/roles/README.md" "t" .ok)
      "cache" "content/roles/r.md" "abcd1234").1
    = some { compliant := false, issues := [], reason := "badtext", severity := some Severity.error }
  ∧ (some { compliant := false, issues := [], reason := "badtext",
            severity := some Severity.error } : Option CachedValidationResult)
    ≠ some { compliant := false, issues := [], reason := "bad\x00text",
             severity := some Severity.error } := by
  constructor
  · rfl
  · decide

/-- C3: `read` returns a stored outcome exactly when the cache file
exists, parses, has the current format version and the requested
fingerprint; `read(path, differentFp)` after a write for `fp` misses;
a corrupt cache file is deleted on detection and treated as a miss.
`read` is a total function — it never throws. -/
theorem cache_read_validity (fs fs2 : CacheFs) (cacheRoot documentPath fp fp' : String)
    (o : CachedValidationResult) (dt sp now : String)
    (hne : fp' ≠ fp)
    (hcor : lookupFile fs2 (CacheManager.cachePathFor cacheRoot documentPath)
      = some CacheFileContent.corrupt) :
    (∀ r, (CacheManager.read fs cacheRoot documentPath fp).1 = some r ↔
      ∃ d, lookupFile fs (CacheManager.cachePathFor cacheRoot documentPath)
          = some (CacheFileContent.parsed d)
        ∧ d.version = CACHE_VERSION ∧ d.content_hash = fp ∧ d.result = r)
  ∧ (CacheManager.read (CacheManager.write fs cacheRoot documentPath fp o dt sp now .ok)
      cacheRoot documentPath fp').1 = none
  ∧ CacheManager.read fs2 cacheRoot documentPath fp
      = (none, eraseFile fs2 (CacheManager.cachePathFor cacheRoot documentPath)) := by
  refine ⟨?_, ?_, ?_⟩
  · intro r
    rcases hfind : lookupFile fs (CacheManager.cachePathFor cacheRoot documentPath)
      with _ | c
    · simp [CacheManager.read, hfind]
    · cases c with
      | corrupt => simp [CacheManager.read, hfind]
      | parsed d =>
          by_cases hv : d.version = CACHE_VERSION <;>
            by_cases hh : d.content_hash = fp <;>
            simp_all [CacheManager.read, hfind]
  · simp [CacheManager.read, CacheManager.write, CacheManager.writeAttempt,
      lookupFile_setFile, CACHE_VERSION, hne, Ne.symm hne]
  · simp [CacheManager.read, hcor]

/-- Witness for C3 at concrete inputs: a fingerprint mismatch and a
corrupt cache file. -/
theorem cache_read_validity_witness :
    (CacheManager.read
      (CacheManager.write [] "cache" "content/roles/r.md" "aaaa1111"
        { compliant := true, issues := [], reason := "ok" } "role" "spec" "t" .ok)
      "cache" "content/roles/r.md" "bbbb2222").1 = none
  ∧ CacheManager.read [("cache/roles/r.json", CacheFileContent.corrupt)]
      "cache" "content/roles/r.md" "aaaa1111"
    = (none, eraseFile [("cache/roles/r.json", CacheFileContent.corrupt)]
        (CacheManager.cachePathFor "cache" "content/roles/r.md")) := by
  have h := cache_read_validity [] [("cache/roles/r.json", CacheFileContent.corrupt)]
    "cache" "content/roles/r.md" "aaaa1111" "bbbb2222"
    { compliant := true, issues := [], reason := "ok" } "role" "spec" "t"
    (by decide) (by decide)
  exact ⟨h.2.1, h.2.2⟩

/-- C9: `write` never raises — it is a total function on the filesystem
state — and on any I/O or serialization failure (clean or after partial
bytes reached disk) the cache path holds no file afterwards, every other
path is untouched, and a subsequent read misses; the surrounding
verification workflow only ever sees a cache miss. -/
theorem cache_write_never_fails (fs : CacheFs) (cacheRoot documentPath fp : String)
    (o : CachedValidationResult) (dt sp now : String) (io : WriteIO)
    (hfail : io ≠ WriteIO.ok) :
    (∀ q, q ≠ CacheManager.cachePathFor cacheRoot documentPath →
      lookupFile (CacheManager.write fs cacheRoot documentPath fp o dt sp now io) q
        = lookupFile fs q)
  ∧ lookupFile (CacheManager.write fs cacheRoot documentPath fp o dt sp now io)
      (CacheManager.cachePathFor cacheRoot documentPath) = none
  ∧ (CacheManager.read (CacheManager.write fs cacheRoot documentPath fp o dt sp now io)
      cacheRoot documentPath fp).1 = none := by
  cases io with
  | ok => exact absurd rfl hfail
  | failClean =>
      refine ⟨?_, ?_, ?_⟩
      · intro q hq
        simp [CacheManager.write, CacheManager.writeAttempt, lookupFile_eraseFile, hq]
      · simp [CacheManager.write, CacheManager.writeAttempt, lookupFile_eraseFile]
      · simp [CacheManager.read, CacheManager.write, CacheManager.writeAttempt,
          lookupFile_eraseFile]
  | failPartial =>
      refine ⟨?_, ?_, ?_⟩
      · intro q hq
        have hq' : ¬ (CacheManager.cachePathFor cacheRoot documentPath = q) :=
          fun h => hq h.symm
        simp [CacheManager.write, CacheManager.writeAttempt, lookupFile_eraseFile,
          lookupFile_setFile, hq, hq']
      · simp [CacheManager.write, CacheManager.writeAttempt, lookupFile_eraseFile]
      · simp [CacheManager.read, CacheManager.write, CacheManager.writeAttempt,
          lookupFile_eraseFile]

/-- Witness for C9: a failed write over an existing entry leaves no file
at the cache path and the read misses. -/
theorem cache_write_never_fails_witness :
    lookupFile
      (CacheManager.write [("cache/roles/r.json", CacheFileContent.corrupt)]
        "cache" "content/roles/r.md" "aaaa1111"
        { compliant := true, issues := [], reason := "ok" } "role" "spec" "t" .failPartial)
      (CacheManager.cachePathFor "cache" "content/roles/r.md") = none
  ∧ (CacheManager.read
      (CacheManager.write [("cache/roles/r.json", CacheFileContent.corrupt)]
        "cache" "content/roles/r.md" "aaaa1111"
        { compliant := true, issues := [], reason := "ok" } "role" "spec" "t" .failPartial)
      "cache" "content/roles/r.md" "aaaa1111").1 = none := by
  have h := cache_write_never_fails [("cache/roles/r.json", CacheFileContent.corrupt)]
    "cache" "content/roles/r.md" "aaaa1111"
    { compliant := true, issues := [], reason := "ok" } "role" "spec" "t" .failPartial
    (by decide)
  exact ⟨h.2.1, h.2.2⟩

/-! ## C4 — orphan detection -/

/-- C4: evaluation at the failing input.  The cache entry written for
the document `content/context/conventions/naming.md` lives at
`context/conventions/naming.json`, so orphan detection keys it as
`context/naming`, while `buildDocumentMap` keys the existing document
as `conventions/naming`; the entry of a document that still exists is
reported as orphaned, contradicting the code's own documentation
("a cache file is orphaned if the source document was deleted").  For
top-level types the claimed behavior does hold: an existing `roles`
document's entry is omitted and a deleted one's entry is reported. -/
theorem orphaned_context_document_misreported :
    CacheManager.cachePathFor "cache" "content/context/conventions/naming.md"
      = "cache/context/conventions/naming.json"
  ∧ CacheManager.buildDocumentMap ["context/conventions/naming.md"] = ["conventions/naming"]
  ∧ CacheManager.orphanedCacheFiles ["context/conventions/naming.json"]
      ["context/conventions/naming.md"]
    = [{ file := "context/conventions/naming.json", reason := "document_missing",
         docName := "naming", type := "context" }]
  ∧ CacheManager.orphanedCacheFiles ["roles/alive.json", "roles/dead.json"] ["roles/alive.md"]
    = [{ file := "roles/dead.json", reason := "document_missing",
         docName := "dead", type := "roles" }] := by
  refine ⟨rfl, rfl, rfl, rfl⟩

/-! ## C2 — content fingerprint -/

theorem take4_sha256 (m : List Nat) :
    List.take 4 (sha256 m) = wordBytes (sha256State m).a := rfl

/-- Base-256 value of a byte list. -/
def natOfBytes (l : List Nat) : Nat := l.foldl (fun acc b => acc * 256 + b) 0

/-- The 32-bit value carried by the first four digest bytes of a
fingerprint. -/
def hash32 (d s : String) : Nat := natOfBytes (List.take 4 (sha256 (utf8Str (d ++ s))))

theorem hash32_lt (d s : String) : hash32 d s < 2 ^ 32 := by
  unfold hash32
  rw [take4_sha256]
  simp [natOfBytes, wordBytes, List.foldl]
  omega

theorem contentHash_congr_of_hash32 (d s d' s' : String)
    (h : hash32 d s = hash32 d' s') : contentHash d s = contentHash d' s' := by
  unfold contentHash
  rw [take4_sha256, take4_sha256]
  unfold hash32 at h
  rw [take4_sha256, take4_sha256] at h
  simp [natOfBytes, wordBytes, List.foldl] at h
  have hb : wordBytes (sha256State (utf8Str (d ++ s))).a
      = wordBytes (sha256State (utf8Str (d' ++ s'))).a := by
    simp [wordBytes]
    omega
  rw [hb]

theorem contentHash_collision : ∃ d d' : String, d ≠ d' ∧ contentHash d "" = contentHash d' "" := by
  obtain ⟨x, y, hxy, hf⟩ :=
    Finite.exists_ne_map_eq_of_infinite
      (fun d : String => (⟨hash32 d "", hash32_lt d ""⟩ : Fin (2 ^ 32)))
  exact ⟨x, y, hxy, contentHash_congr_of_hash32 x "" y "" (congrArg Fin.val hf)⟩

/-- C2 counterexample: universal collision-freedom is false — the
digest keeps 8 hex characters (32 bits), so by pigeonhole two distinct
document contents share a fingerprint against the same specification
content; no feasible concrete pair can be exhibited, but the negation of
the claimed invariant is provable outright. -/
theorem contentHash_collision_exists :
    ¬ ∀ (d d' s : String), d ≠ d' → contentHash d s ≠ contentHash d' s := by
  intro hclaim
  obtain ⟨x, y, hxy, he⟩ := contentHash_collision
  exact hclaim x y "" hxy he

/-- Whether a character is a lowercase hex digit. -/
def isHexDigit (c : Char) : Bool :=
  decide ((48 ≤ c.toNat ∧ c.toNat ≤ 57) ∨ (97 ≤ c.toNat ∧ c.toNat ≤ 102))

theorem isHexDigit_hexChar (n : Nat) (h : n < 16) : isHexDigit (hexChar n) = true := by
  have : ∀ k : Fin 16, isHexDigit (hexChar k.1) = true := by decide
  exact this ⟨n, h⟩

set_option maxRecDepth 100000 in
/-- C2 (amended): the fingerprint is a stable 8-hex-character digest —
deterministic, 8 lowercase hex characters for every input pair, and
distinct on the practical test fixtures — but collision-freedom does
not hold for all inputs (see the pigeonhole counterexample). -/
theorem contentHash_stable_hex_digest (d s : String) :
    (contentHash d s).length = 8
  ∧ (∀ c ∈ (contentHash d s).toList, isHexDigit c = true)
  ∧ (∀ d' s', d = d' → s = s' → contentHash d s = contentHash d' s')
  ∧ contentHash "doc A" "readme" ≠ contentHash "doc B" "readme"
  ∧ contentHash "doc" "readme v1" ≠ contentHash "doc" "readme v2" := by
  have hrw : contentHash d s = hexOfBytes (wordBytes (sha256State (utf8Str (d ++ s))).a) := by
    rw [contentHash, take4_sha256]
  refine ⟨?_, ?_, ?_, by decide, by decide⟩
  · rw [hrw]; rfl
  · intro c hc
    rw [hrw] at hc
    simp [hexOfBytes, hexByte, wordBytes] at hc
    rcases hc with h | h | h | h | h | h | h | h <;> rw [h] <;>
      exact isHexDigit_hexChar _ (by omega)
  · intro d' s' hd hs
    rw [hd, hs]

set_option maxRecDepth 100000 in
/-- Witness for C2's amended theorem: the digest of a known vector
(`sha256("abc")` starts `ba7816bf`) and a discharged determinism
instance. -/
theorem contentHash_stable_hex_digest_witness :
    contentHash "a" "bc" = "ba7816bf"
  ∧ (contentHash "a" "bc").length = 8
  ∧ contentHash "a" "bc" = contentHash "a" "bc" := by
  refine ⟨by decide, (contentHash_stable_hex_digest "a" "bc").1,
    (contentHash_stable_hex_digest "a" "bc").2.2.1 "a" "bc" rfl rfl⟩

/-! ## C5, C6 — reference groups -/

/-- C5: a manifest declaring `constitution: true` expands no files,
emits exactly one deprecation diagnostic — and no zero-match warning
for the group — and yields an empty constitution section, which the
profile omits (its rendering contributes nothing). -/
theorem constitution_true_deprecated (fs : CFs) (root : String) (fm : Frontmatter)
    (hconst : fm "constitution" = FmValue.boolVal true) :
    RoleCompiler.resolveConstitutionPatterns fs root fm = ([], [Diag.deprecatedConstitution])
  ∧ RoleCompiler.inlineConstitution fs root fm = ([], [Diag.deprecatedConstitution])
  ∧ OutputBuilder.renderSection "Constitution" (RoleCompiler.inlineConstitution fs root fm).1
      = [] := by
  have h1 : RoleCompiler.resolveConstitutionPatterns fs root fm
      = ([], [Diag.deprecatedConstitution]) := by
    simp [RoleCompiler.resolveConstitutionPatterns, hconst]
  have h2 : RoleCompiler.inlineConstitution fs root fm = ([], [Diag.deprecatedConstitution]) := by
    simp [RoleCompiler.inlineConstitution, h1, hconst, inlineBodies]
  exact ⟨h1, h2, by rw [h2]; rfl⟩

/-- Witness for C5 at a concrete manifest. -/
theorem constitution_true_deprecated_witness :
    RoleCompiler.inlineConstitution [] "root"
      (fun k => if k = "constitution" then FmValue.boolVal true else FmValue.missing)
      = ([], [Diag.deprecatedConstitution]) :=
  (constitution_true_deprecated [] "root" _ (by simp)).2.1

theorem compileRole_ok_of_no_plugins (fs : CFs) (out : OutFs) (root : String)
    (cfg : CompilerConfig) (fm : Frontmatter) (roleBody : String)
    (hplug : cfg.plugins = []) :
    ∃ v, RoleCompiler.compileRole fs out root cfg fm roleBody = Except.ok v := by
  have hw : ∀ (profile : String) (md : Option AgentMetadata) (a : String),
      RoleCompiler.writeOutputs out root cfg profile md a
        = Except.ok (match cfg.agentProfilesOutputDir with
            | some dir => setFile out (joinPath dir (toLowerStr a ++ ".md")) profile
            | none => out) := by
    intro profile md a
    simp [RoleCompiler.writeOutputs, hplug, resolvePlugins]
  rcases halias : fmValueStr fm "alias" with _ | a
  · exact ⟨(none, out, [Diag.noAlias]), by simp [RoleCompiler.compileRole, halias]⟩
  · by_cases haz : a = ""
    · exact ⟨(none, out, [Diag.noAlias]), by simp [RoleCompiler.compileRole, halias, haz]⟩
    · simp only [RoleCompiler.compileRole, halias, haz, if_false, hw]
      exact ⟨_, rfl⟩

/-- C6: with a reference group `["a.md", "b.md"]` where only `a.md`
exists, `inlineRefs` yields exactly `a.md`'s body plus a diagnostic
naming `b.md` as not found, and compilation of the role does not
abort — it returns a normal result. -/
theorem missing_ref_skipped (fs : CFs) (out : OutFs) (root : String) (cfg : CompilerConfig)
    (fm : Frontmatter) (bodyA roleBody : String)
    (hrefs : fm "refs" = FmValue.arrVal ["a.md", "b.md"])
    (ha : lookupFile fs (joinPath root "a.md") = some bodyA)
    (hb : lookupFile fs (joinPath root "b.md") = none)
    (hplug : cfg.plugins = []) :
    RoleCompiler.inlineRefs fs root fm "refs" = ([bodyA], [Diag.refNotFound "b.md"])
  ∧ ∃ v, RoleCompiler.compileRole fs out root cfg fm roleBody = Except.ok v := by
  constructor
  · have hga : GlobExpander.isGlob "a.md" = false := by decide
    have hgb : GlobExpander.isGlob "b.md" = false := by decide
    simp [RoleCompiler.inlineRefs, fmArray, hrefs, hga, hgb, GlobExpander.expandAll,
      GlobExpander.expand, ha, hb, inlineBodies, dedupKeepFirst, List.foldl]
  · exact compileRole_ok_of_no_plugins fs out root cfg fm roleBody hplug

/-- Witness for C6 at a concrete content tree and manifest. -/
theorem missing_ref_skipped_witness :
    RoleCompiler.inlineRefs [("root/a.md", "BODY A")] "root"
        (fun k => if k = "refs" then FmValue.arrVal ["a.md", "b.md"] else FmValue.missing) "refs"
      = (["BODY A"], [Diag.refNotFound "b.md"]) :=
  (missing_ref_skipped [("root/a.md", "BODY A")] [] "root"
    { agentProfilesOutputDir := none, plugins := [] } _ "BODY A" "role body"
    (by simp) (by decide) (by decide) rfl).1

/-! ## C7, C8 — output routing -/

/-- C7 counterexample: with a profile directory configured, the profile
file for alias "My Role" is named `my role.md` — the alias merely
lowercased — not the hyphen-collapsed `my-role.md` the claim states;
the collapsed form is the derived metadata name. -/
theorem profile_filename_not_normalized :
    RoleCompiler.writeOutputs [] "r" { agentProfilesOutputDir := some "out", plugins := [] }
        "P" none "My Role"
      = Except.ok [("out/my role.md", "P")]
  ∧ normalizeAlias "My Role" = "my-role"
  ∧ lookupFile ([("out/my role.md", "P")] : OutFs) "out/my-role.md" = none
  ∧ "out/my role.md" ≠ "out/my-role.md" := by
  exact ⟨rfl, rfl, rfl, by decide⟩

/-- C7 (amended): with a profile output location configured, exactly one
file per alias is written, named by the alias lowercased (plus `.md`) —
not hyphen-normalized — while the lowercase-hyphen normalization applies
to the derived agent metadata name. -/
theorem profile_file_per_alias (out : OutFs) (root dir profile : String)
    (md : Option AgentMetadata) (roleAlias : String) (cfg : CompilerConfig) (fm : Frontmatter)
    (hdir : cfg.agentProfilesOutputDir = some dir) (hplug : cfg.plugins = []) :
    RoleCompiler.writeOutputs out root cfg profile md roleAlias
      = Except.ok (setFile out (joinPath dir (toLowerStr roleAlias ++ ".md")) profile)
  ∧ (∀ m, (RoleCompiler.buildAgentMetadata fm roleAlias).1 = some m →
      m.name = normalizeAlias roleAlias) := by
  constructor
  · simp [RoleCompiler.writeOutputs, hdir, hplug, resolvePlugins]
  · intro m hm
    rcases hd : fmValueStr fm "description" with _ | dsc
    · simp [RoleCompiler.buildAgentMetadata, hd] at hm
    · by_cases hde : dsc = ""
      · simp [RoleCompiler.buildAgentMetadata, hd, hde] at hm
      · simp only [RoleCompiler.buildAgentMetadata, hd] at hm
        rw [if_neg hde] at hm
        injection hm with hm2
        rw [← hm2]

/-- Witness for C7's amended theorem at a concrete alias. -/
theorem profile_file_per_alias_witness :
    RoleCompiler.writeOutputs [] "r" { agentProfilesOutputDir := some "out", plugins := [] }
        "P" none "A B"
      = Except.ok (setFile [] (joinPath "out" (toLowerStr "A B" ++ ".md")) "P")
  ∧ ({ name := "a-b", description := "d" } : AgentMetadata).name = normalizeAlias "A B" := by
  have h := profile_file_per_alias [] "r" "out" "P" none "A B"
    { agentProfilesOutputDir := some "out", plugins := [] }
    (fun k => if k = "description" then FmValue.strVal "d" else FmValue.missing) rfl rfl
  exact ⟨h.1, h.2 { name := "a-b", description := "d" } (by rfl)⟩

theorem resolvePlugins_error_first (good : List String) (bad : String) (rest : List String)
    (hgood : ∀ g ∈ good, (lookupFile PLUGINS g).isSome = true)
    (hbad : lookupFile PLUGINS bad = none) :
    resolvePlugins (good ++ bad :: rest) = Except.error (unknownPluginMsg bad) := by
  induction good with
  | nil => simp [resolvePlugins, hbad]
  | cons g gs ih =>
      have hg := hgood g (by simp)
      rcases hc : lookupFile PLUGINS g with _ | c
      · rw [hc] at hg
        simp at hg
      · have ih2 := ih (fun x hx => hgood x (by simp [hx]))
        simp [resolvePlugins, hc, ih2]

/-- C8 counterexample: an unknown sink name does raise a configuration
error, but only after the pure-profile file for the current role has
been written — the error-time output state already contains it, so the
claim's "aborts before any output is written" fails. -/
theorem unknown_sink_profile_written :
    RoleCompiler.writeOutputs [] "r"
        { agentProfilesOutputDir := some "profiles", plugins := ["bogus"] } "P" none "Tester"
      = Except.error (unknownPluginMsg "bogus", [("profiles/tester.md", "P")])
  ∧ lookupFile ([("profiles/tester.md", "P")] : OutFs) "profiles/tester.md" = some "P" :=
  ⟨rfl, rfl⟩

/-- C8 (amended): a configured sink name outside the fixed registry
makes compilation of the role fail with an error naming that sink and
listing the known sink names; plugin resolution precedes every plugin
write, so no plugin output is produced — but the pure-profile file for
the role has already been written when the error is raised. -/
theorem unknown_sink_error_after_profile (out : OutFs) (root : String) (cfg : CompilerConfig)
    (profile : String) (md : Option AgentMetadata) (roleAlias : String)
    (good : List String) (bad : String) (rest : List String)
    (hsplit : cfg.plugins = good ++ bad :: rest)
    (hgood : ∀ g ∈ good, (lookupFile PLUGINS g).isSome = true)
    (hbad : lookupFile PLUGINS bad = none) :
    ∃ out1,
      RoleCompiler.writeOutputs out root cfg profile md roleAlias
        = Except.error (unknownPluginMsg bad, out1)
    ∧ unknownPluginMsg bad
        = "Unknown plugin: \"" ++ bad ++ "\". Available plugins: " ++ availablePlugins
    ∧ availablePlugins = "claude-code"
    ∧ (∀ dir, cfg.agentProfilesOutputDir = some dir →
        lookupFile out1 (joinPath dir (toLowerStr roleAlias ++ ".md")) = some profile)
    ∧ (∀ q, (∀ dir, cfg.agentProfilesOutputDir = some dir →
          q ≠ joinPath dir (toLowerStr roleAlias ++ ".md")) →
        lookupFile out1 q = lookupFile out q) := by
  have hr := resolvePlugins_error_first good bad rest hgood hbad
  refine ⟨(match cfg.agentProfilesOutputDir with
           | some dir => setFile out (joinPath dir (toLowerStr roleAlias ++ ".md")) profile
           | none => out), ?_, rfl, rfl, ?_, ?_⟩
  · simp [RoleCompiler.writeOutputs, hsplit, hr]
  · intro dir hdir
    simp [hdir, lookupFile_setFile]
  · intro q hq
    rcases hcfg : cfg.agentProfilesOutputDir with _ | dir
    · simp [hcfg]
    · have hqne := hq dir hcfg
      have hqne' : ¬ joinPath dir (toLowerStr roleAlias ++ ".md") = q := fun h => hqne h.symm
      simp [hcfg, lookupFile_setFile, hqne']

/-- Witness for C8's amended theorem at a concrete configuration. -/
theorem unknown_sink_error_witness :
    RoleCompiler.writeOutputs [] "r"
        { agentProfilesOutputDir := some "profiles", plugins := ["bogus"] } "P" none "Tester"
      = Except.error (unknownPluginMsg "bogus", [("profiles/tester.md", "P")])
  ∧ unknownPluginMsg "bogus" = "Unknown plugin: \"bogus\". Available plugins: claude-code" := by
  obtain ⟨out1, h1, h2, h3, h4, h5⟩ := unknown_sink_error_after_profile [] "r"
    { agentProfilesOutputDir := some "profiles", plugins := ["bogus"] } "P" none "Tester"
    [] "bogus" [] rfl (by simp) (by rfl)
  refine ⟨rfl, ?_⟩
  rw [h2, h3]
  rfl

/-! ## C10 — validation reply parsing -/

theorem parseIssues_ne_nil (r : String) : DocumentValidator.parseIssues r ≠ [] := by
  simp only [DocumentValidator.parseIssues]
  split
  · next h => exact List.ne_nil_of_length_pos h
  · simp

/-- C10: for every verification reply, the parsed result's reason is the
trimmed reply; a compliant result has no issues and no severity; a
non-compliant result has a non-empty issues list (falling back to the
whole reply) and severity warning exactly when the reply's leading
token is "maybe" (case-insensitively), error otherwise. -/
theorem parseResponse_classifies (response : String) :
    (DocumentValidator.parseResponse response).reason = jsTrim response
  ∧ ((DocumentValidator.parseResponse response).compliant = true →
      (DocumentValidator.parseResponse response).issues = []
      ∧ (DocumentValidator.parseResponse response).severity = none)
  ∧ ((DocumentValidator.parseResponse response).compliant = false →
      (DocumentValidator.parseResponse response).issues ≠ []
      ∧ (DocumentValidator.parseResponse response).severity
        = some (if firstWord (jsTrim response) = "maybe" then Severity.warning
                else Severity.error)) := by
  by_cases h : firstWord (jsTrim response) = "yes"
  · simp [DocumentValidator.parseResponse, h]
  · simp [DocumentValidator.parseResponse, h, parseIssues_ne_nil]

/-- Witness for C10 at a concrete "Maybe" reply. -/
theorem parseResponse_classifies_witness :
    (DocumentValidator.parseResponse "Maybe, check headings").compliant = false
  ∧ (DocumentValidator.parseResponse "Maybe, check headings").severity = some Severity.warning
  ∧ (DocumentValidator.parseResponse "Maybe, check headings").issues ≠ [] := by
  have h := parseResponse_classifies "Maybe, check headings"
  have hc : (DocumentValidator.parseResponse "Maybe, check headings").compliant = false := by
    decide
  refine ⟨hc, ?_, (h.2.2 hc).1⟩
  rw [(h.2.2 hc).2]
  decide

